import Mathlib

/-!
Verification development for a two-player networked tic-tac-toe program.

The program consists of a pure rule engine (`solutions/3/game_state.py`,
`solutions/3/load_game_state.py`), a server arbitration state machine
(`solutions/tic_tac_toe/tic_tac_toe_server.py`) and terminal clients
(`solutions/tic_tac_toe/tic_tac_toe_client_terminal*.py`).

Python strings are embedded as `List Char`; the 3x3 board (a Python list of
lists of single characters) is embedded as a function `Fin 3 → Fin 3 → Char`
in row-major order, `b r c` being row `r`, column `c`.  Machine behaviour
that can raise (list indexing, `int()` conversion, unbound locals) is made
explicit with `Option`/sum-shaped results.
-/

/-- A 3x3 tic-tac-toe board, row major: `b r c` is `self._board[r][c]`. -/
def Board : Type := Fin 3 → Fin 3 → Char

instance : DecidableEq Board := fun a b => Fintype.decidablePiFintype a b

/-- Embedding of the Python class `GameState` from `solutions/3/game_state.py`:
a board of characters plus `_current_player`. -/
structure GameState where
  board : Board
  current_player : Char
deriving DecidableEq

/-- `GameState.__init__`: a 3x3 board of spaces, `'X'` to move. -/
def GameState.initial : GameState :=
  { board := fun _ _ => ' ', current_player := 'X' }

/-- Conversion of an integer known to lie in `[0,3)` into a board index. -/
def toFin3 (i : Int) (h : 0 ≤ i ∧ i < 3) : Fin 3 :=
  ⟨i.toNat, by omega⟩

/-- Embedding of `GameState.make_move(col, row)`.  The Python method checks
`0 <= row < 3 and 0 <= col < 3 and self._board[row][col] == ' '` (short
circuit, so the indexing is always in range), marks the cell with the current
player, switches `_current_player`, and returns `True`; otherwise it returns
`False` without touching the state.  We return the boolean together with the
state after the call. -/
def GameState.make_move (s : GameState) (col row : Int) : Bool × GameState :=
  if hr : 0 ≤ row ∧ row < 3 then
    if hc : 0 ≤ col ∧ col < 3 then
      let r := toFin3 row hr
      let c := toFin3 col hc
      if s.board r c = ' ' then
        (true,
          { board := Function.update s.board r (Function.update (s.board r) c s.current_player),
            current_player := if s.current_player = 'X' then 'O' else 'X' })
      else (false, s)
    else (false, s)
  else (false, s)

/-- The eight candidate winning lines of `GameState.inspect_win`, in source
order: three rows, three columns, two diagonals.  Each line is the triple of
characters the Python code collects. -/
def winLines (b : Board) : List (Char × Char × Char) :=
  [ (b 0 0, b 0 1, b 0 2),
    (b 1 0, b 1 1, b 1 2),
    (b 2 0, b 2 1, b 2 2),
    (b 0 0, b 1 0, b 2 0),
    (b 0 1, b 1 1, b 2 1),
    (b 0 2, b 1 2, b 2 2),
    (b 0 0, b 1 1, b 2 2),
    (b 0 2, b 1 1, b 2 0) ]

/-- Embedding of `GameState.inspect_win`: some line has a non-space first cell
and all three cells equal to the first (the check `cell == line[0]` for the
first cell itself is trivially true and omitted). -/
def inspect_win (b : Board) : Bool :=
  (winLines b).any fun l => l.1 ≠ ' ' && (l.2.1 = l.1 && l.2.2 = l.1)

/-- The nine board cells in row-major order (the order the Python code uses
when it flattens the board). -/
def boardFlat (b : Board) : List Char :=
  [b 0 0, b 0 1, b 0 2, b 1 0, b 1 1, b 1 2, b 2 0, b 2 1, b 2 2]

/-- Number of cells of `b` holding symbol `p` (`flat.count(p)` in Python). -/
def countSym (b : Board) (p : Char) : Nat :=
  (boardFlat b).count p

/-- The horizontal rule of `GameState.draw`, the literal eleven characters of
the Python string between the data rows. -/
def sepLine : List Char :=
  ['─', '─', '─', '┼', '─', '─', '─', '┼', '─', '─', '─']

/-- One data row of `GameState.draw`: the f-string
produces space, cell, space, bar, space, cell, space, bar, space, cell,
space. -/
def rowChars (b : Board) (r : Fin 3) : List Char :=
  [' ', b r 0, ' ', '│', ' ', b r 1, ' ', '│', ' ', b r 2, ' ']

/-- Embedding of `GameState.draw`: the three data rows and two separator rows
joined with a newline, exactly as `"\n".join(rows)` builds it. -/
def draw (b : Board) : List Char :=
  rowChars b 0 ++ '\n' :: (sepLine ++ '\n' :: (rowChars b 1 ++ '\n' :: (sepLine ++ '\n' :: rowChars b 2)))

/-- Modelled from the spec: the tic-tac-toe server and `play_local_game.py`
load a `game_state.py` that lives next to them and is not part of the
sources we were given (only `solutions/3/game_state.py` is); that version
additionally defines `__str__`, which the server interpolates with
`f"update {str(game)}"`.  Per the spec, the rendering used for display and as
the `update` wire payload is the fixed textual grid of the board, i.e.
`draw`. -/
def gameStr (g : GameState) : List Char :=
  draw g.board

/-- Modelled from the spec: the missing `game_state.py` next to the server
also defines `inspect_draw`, used for the server's draw check.  The spec
says: true iff all 9 cells are non-empty and `has_winner` is false. -/
def inspect_draw (b : Board) : Bool :=
  (boardFlat b).all (fun c => c ≠ ' ') && !(inspect_win b)

/-- Characters Python's `str.splitlines` treats as line boundaries (the
`"\r\n"` pair counts as a single boundary and is handled in
`splitLinesAux`). -/
def isLineBreak (c : Char) : Bool :=
  c = '\n' || c = '\r' || c = '\x0b' || c = '\x0c' ||
  c = '\x1c' || c = '\x1d' || c = '\x1e' || c = '\x85' ||
  c = '\u2028' || c = '\u2029'

/-- Worker for `splitLines`; `acc` holds the reversed characters of the line
being read, and `afterCR` records that the previous character was a
carriage return whose line was already emitted, so that the `'\n'` of a
`"\r\n"` pair is swallowed.  A trailing line boundary does not open a new
(empty) final line, matching Python's `str.splitlines`. -/
def splitLinesAux : List Char → List Char → Bool → List (List Char)
  | [], acc, _ => if acc.isEmpty then [] else [acc.reverse]
  | c :: rest, acc, afterCR =>
    if afterCR = true ∧ c = '\n' then splitLinesAux rest acc false
    else if c = '\r' then acc.reverse :: splitLinesAux rest [] true
    else if isLineBreak c then acc.reverse :: splitLinesAux rest [] false
    else splitLinesAux rest (c :: acc) false

/-- Embedding of Python's `str.splitlines` used by `load_game_string`. -/
def splitLines (s : List Char) : List (List Char) :=
  splitLinesAux s [] false

/-- The character set `allowed = {'X', 'O', ' '}` of `load_game_string`. -/
def allowed : List Char := ['X', 'O', ' ']

/-- Per-data-line parsing step of `load_game_string`: the line must have
exactly 11 characters, spaces at offsets 0,2,4,6,8,10, the bar glyph at
offsets 3 and 7, and each cell character in `allowed`; the three cell
characters are returned. -/
def parseDataLine (l : List Char) : Option (Char × Char × Char) :=
  match l with
  | [p0, c1, p2, b3, p4, c2, p6, b7, p8, c3, p10] =>
    if p0 = ' ' ∧ p2 = ' ' ∧ p4 = ' ' ∧ p6 = ' ' ∧ p8 = ' ' ∧ p10 = ' ' then
      if b3 = '│' ∧ b7 = '│' then
        if c1 ∈ allowed ∧ c2 ∈ allowed ∧ c3 ∈ allowed then
          some (c1, c2, c3)
        else none
      else none
    else none
  | _ => none

/-- Assemble a board from nine characters in row-major order (the
`rows_parsed` list of lists that `load_game_string` builds). -/
def mkBoard (c1 c2 c3 c4 c5 c6 c7 c8 c9 : Char) : Board :=
  ![![c1, c2, c3], ![c4, c5, c6], ![c7, c8, c9]]

/-- Embedding of the helper `is_winner(b, p)` inside `load_game_string`:
some row, some column or a diagonal consists entirely of `p`. -/
def is_winner (b : Board) (p : Char) : Bool :=
  (List.finRange 3).any (fun r => (List.finRange 3).all fun c => b r c = p) ||
  (List.finRange 3).any (fun c => (List.finRange 3).all fun r => b r c = p) ||
  (b 0 0 = p && b 1 1 = p && b 2 2 = p) ||
  (b 0 2 = p && b 1 1 = p && b 2 0 = p)

/-- Embedding of `load_game_string` from `solutions/3/load_game_state.py`:
split into lines, require exactly five of them with the two separator lines
equal to the fixed rule, parse the three data lines, validate the X/O counts
and the win configuration, and return the populated `GameState` (whose
current player is X when the counts are equal, otherwise O); `None` becomes
`none`. -/
def load_game_string (s : List Char) : Option GameState :=
  match splitLines s with
  | [l0, l1, l2, l3, l4] =>
    if l1 = sepLine ∧ l3 = sepLine then
      match parseDataLine l0, parseDataLine l2, parseDataLine l4 with
      | some (c1, c2, c3), some (c4, c5, c6), some (c7, c8, c9) =>
        let flat : List Char := [c1, c2, c3, c4, c5, c6, c7, c8, c9]
        let x_count := flat.count 'X'
        let o_count := flat.count 'O'
        if x_count = o_count ∨ x_count = o_count + 1 then
          let b := mkBoard c1 c2 c3 c4 c5 c6 c7 c8 c9
          let x_win := is_winner b 'X'
          let o_win := is_winner b 'O'
          if x_win ∧ o_win then none
          else if x_win ∧ x_count ≠ o_count + 1 then none
          else if o_win ∧ x_count ≠ o_count then none
          else some { board := b, current_player := if x_count = o_count then 'X' else 'O' }
        else none
      | _, _, _ => none
    else none
  | _ => none

/-- Whitespace characters recognised by Python's `str.split()` with no
argument (the ASCII ones; the wire messages at issue contain no exotic
Unicode spaces). -/
def isPySpace (c : Char) : Bool :=
  c = ' ' || c = '\t' || c = '\n' || c = '\r' || c = '\x0b' || c = '\x0c'

/-- Worker for `pySplit`; `acc` is the reversed current token. -/
def pySplitAux : List Char → List Char → List (List Char)
  | [], acc => if acc.isEmpty then [] else [acc.reverse]
  | c :: rest, acc =>
    if isPySpace c then
      if acc.isEmpty then pySplitAux rest [] else acc.reverse :: pySplitAux rest []
    else pySplitAux rest (c :: acc)

/-- Embedding of Python's `msg.split()`: split on runs of whitespace,
producing no empty tokens. -/
def pySplit (s : List Char) : List (List Char) :=
  pySplitAux s []

/-- Digit-string to number, for `pyInt`. -/
def digitsToNat (l : List Char) : Option Nat :=
  if l ≠ [] ∧ l.all (fun c => c.isDigit) then
    some (l.foldl (fun a c => a * 10 + (c.toNat - '0'.toNat)) 0)
  else none

/-- Embedding of Python's `int(token)` on a whitespace-free token: an
optional sign followed by decimal digits; anything else raises `ValueError`,
embedded as `none`.  (Python also accepts underscores between digits and
non-ASCII digits; the tokens at issue never contain those.) -/
def pyInt (s : List Char) : Option Int :=
  match s with
  | '-' :: ds => (digitsToNat ds).map (fun n => -(n : Int))
  | '+' :: ds => (digitsToNat ds).map (fun n => (n : Int))
  | ds => (digitsToNat ds).map (fun n => (n : Int))

/-- The states of the server state machine in which it blocks on
`sub_socket.recv_string()` (`START_GAME` and `PROCESS_MOVE` never block and
are folded into the step that enters them), plus the terminal state. -/
inductive Phase
  | waitingForPlayers
  | waitingForMove
  | gameOver
deriving DecidableEq

/-- Messages published by the server (`send_server_message` payloads).  Each
constructor is one `send_server_message` call site's payload shape. -/
inductive ServerMsg
  | joined (u : List Char)
  | update (s : List Char)
  | turn (u : List Char)
  | won (u : List Char)
  | draw
  | errorDisconnect
deriving DecidableEq

/-- The mutable variables of the server main loop: current (blocking) state,
`players`, `turn_index` and the optional `game`. -/
structure ServerState where
  phase : Phase
  players : List (List Char)
  turn_index : Nat
  game : Option GameState
deriving DecidableEq

/-- The server variables as initialised before the loop: lobby state, no
players, `turn_index = 0`, no game. -/
def ServerState.initial : ServerState :=
  { phase := .waitingForPlayers, players := [], turn_index := 0, game := none }

/-- Result of feeding one received message to the server loop: either the
loop reaches its next blocking point (or `GAME_OVER`) with the given state
and published messages, or an exception escapes to the outer handler, which
publishes `error disconnect` and terminates the process. -/
inductive StepResult
  | ok (st : ServerState) (out : List ServerMsg)
  | fatal (out : List ServerMsg)
deriving DecidableEq

/-- The `PROCESS_MOVE` block of the server `main` loop.  It runs inside the
inner `try`; an `IndexError`/`ValueError`/`AttributeError` raised there is
caught, `error disconnect` is published (after anything already sent) and
the state becomes `GAME_OVER`.  `colTok` is `last_message[1]` (also the
token that was compared against `"resign"`), `rowTok` is `last_message[2]`,
`username` is `last_message[3]`. -/
def processMove (st : ServerState) (colTok rowTok username : List Char) : StepResult :=
  match pyInt colTok, pyInt rowTok with
  | some col, some row =>
    match st.players.get? st.turn_index with
    | none =>
      -- `players[turn_index]` raises IndexError, caught by the inner handler.
      .ok { st with phase := .gameOver } [.errorDisconnect]
    | some current =>
      if username ≠ current then
        -- Turn-enforcement gate: silently ignored, back to WAITING_FOR_MOVE.
        .ok { st with phase := .waitingForMove } []
      else
        match st.game with
        | none =>
          -- `game.make_move` on `None` raises AttributeError, caught.
          .ok { st with phase := .gameOver } [.errorDisconnect]
        | some g =>
          let mv := g.make_move col row
          if mv.1 = false then
            -- Invalid move: the submitting player forfeits.
            match st.players with
            | [] => .ok { st with phase := .gameOver } [.errorDisconnect]
            | p0 :: tail =>
              if username = p0 then
                match tail with
                | [] =>
                  -- `players[1]` raises IndexError, caught.
                  .ok { st with phase := .gameOver } [.errorDisconnect]
                | p1 :: _ => .ok { st with phase := .gameOver } [.won p1]
              else .ok { st with phase := .gameOver } [.won p0]
          else
            let g2 := mv.2
            let upd := ServerMsg.update (gameStr g2)
            if inspect_win g2.board then
              .ok { st with phase := .gameOver, game := some g2 } [upd, .won current]
            else if inspect_draw g2.board then
              .ok { st with phase := .gameOver, game := some g2 } [upd, .draw]
            else
              let ti2 := 1 - st.turn_index
              match st.players.get? ti2 with
              | none =>
                -- `players[turn_index]` for the turn broadcast raises, caught;
                -- the update was already published.
                .ok { st with phase := .gameOver, game := some g2 } [upd, .errorDisconnect]
              | some nextP =>
                .ok { st with phase := .waitingForMove, game := some g2, turn_index := ti2 }
                  [upd, .turn nextP]
  | _, _ =>
    -- `int(last_message[1])` or `int(last_message[2])` raises ValueError, caught.
    .ok { st with phase := .gameOver } [.errorDisconnect]

/-- One iteration of the server `main` loop from a blocking state, driven by
the message `msg` just received on the SUB socket.  `swap` stands for the
outcome of `random.shuffle(players)` on the two-element player list in
`START_GAME` (the shuffle either keeps or reverses a two-element list);
`START_GAME` and `PROCESS_MOVE` are folded in because the loop reaches them
without receiving again.  Exceptions raised outside the inner `try`
(`tokens[1]`/`tokens[2]`/`tokens[3]` on short token lists, `players[...]` in
the resign handler) escape to the outer `except Exception` handler, which
publishes `error disconnect` and ends the session: result `.fatal`. -/
def serverStep (swap : Bool) (st : ServerState) (msg : List Char) : StepResult :=
  match st.phase with
  | .waitingForPlayers =>
    match pySplit msg with
    | [] => .ok st []                      -- `if not tokens: continue`
    | [_] => .fatal [.errorDisconnect]     -- `tokens[1]` raises IndexError
    | _ :: t1 :: rest =>
      if t1 = "request".toList then
        match rest with
        | [] => .fatal [.errorDisconnect]  -- `tokens[2]` raises IndexError
        | t2 :: rest2 =>
          if t2 = "join".toList then
            match rest2 with
            | [] => .fatal [.errorDisconnect]  -- `tokens[3]` raises IndexError
            | username :: _ =>
              let players2 :=
                if username ∈ st.players then st.players else st.players ++ [username]
              let outJoin : List ServerMsg :=
                if username ∈ st.players then [] else [.joined username]
              if players2.length = 2 then
                -- START_GAME runs immediately: fresh game, shuffle, turn 0.
                let shuffled := if swap then players2.reverse else players2
                let g := GameState.initial
                .ok { phase := .waitingForMove, players := shuffled, turn_index := 0,
                      game := some g }
                  (outJoin ++ [.update (gameStr g), .turn (shuffled.getD 0 [])])
              else .ok { st with players := players2 } outJoin
          else if t1 = "resign".toList then
            .ok { st with players := [] } []  -- lobby reset
          else .ok st []                      -- unrecognised: fall through, ignored
      else if t1 = "resign".toList then
        .ok { st with players := [] } []      -- lobby reset
      else .ok st []                          -- unrecognised: fall through, ignored
  | .waitingForMove =>
    match pySplit msg with
    | [] => .fatal [.errorDisconnect]      -- `tokens[1]` raises IndexError (no guard here)
    | [_] => .fatal [.errorDisconnect]     -- `tokens[1]` raises IndexError
    | _ :: t1 :: rest =>
      if t1 = "resign".toList then
        match rest with
        | [] => .fatal [.errorDisconnect]  -- `tokens[2]` raises IndexError
        | username :: _ =>
          match st.players with
          | [] => .fatal [.errorDisconnect]  -- `players[0]` raises IndexError
          | p0 :: tail =>
            if username = p0 then
              match tail with
              | [] => .fatal [.errorDisconnect]  -- `players[1]` raises IndexError
              | p1 :: _ => .ok { st with phase := .gameOver } [.won p1]
            else .ok { st with phase := .gameOver } [.won p0]
      else
        match rest with
        | [rowTok, username] => processMove st t1 rowTok username  -- 4 tokens: a move
        | _ => .ok st []                   -- `# Ignore any other input`
  | .gameOver => .ok st []                 -- loop breaks; no further behaviour

/-- Embedding of Python's `string.split(" ")` (split on every single space,
keeping empty fields) used by `discover_server`. -/
def pySplitSepAux : List Char → List Char → List (List Char)
  | [], acc => [acc.reverse]
  | c :: rest, acc =>
    if c = ' ' then acc.reverse :: pySplitSepAux rest []
    else pySplitSepAux rest (c :: acc)

/-- Python `s.split(" ")`. -/
def pySplitSep (s : List Char) : List (List Char) :=
  pySplitSepAux s []

/-- Python `s.strip()`: drop leading and trailing whitespace. -/
def pyStrip (s : List Char) : List Char :=
  ((s.dropWhile isPySpace).reverse.dropWhile isPySpace).reverse

/-- The Python exceptions the embedding makes explicit. -/
inductive PyError
  | unboundLocalError
deriving DecidableEq

/-- The receive loop of `discover_server` in
`tic_tac_toe_client_terminal.py`, lines 24-34, over the list of datagrams
that arrive within the timeout window.  Locals `server_ip`,
`port_to_clients` and `port_from_clients` are threaded as `Option`s; only
`server_ip` is initialised (to `None`) before the loop.  Indexing a too-short
`fields` list raises `IndexError`, which the bare `except` catches, so the
loop just moves on; the assignments before the failing index have already
happened.  Returns the three locals and whether the loop ended via
`break`. -/
def discoverLoop :
    List (List Char) → Option (List Char) → Option (List Char) → Option (List Char) →
      Option (List Char) × Option (List Char) × Option (List Char) × Bool
  | [], ip, ptc, pfc => (ip, ptc, pfc, false)
  | d :: rest, ip, ptc, pfc =>
    let fields := pySplitSep d
    match fields.get? 1 with
    | none => discoverLoop rest ip ptc pfc          -- fields[1] raises, caught
    | some f1 =>
      if pyStrip f1 = "server_info".toList then
        match fields.get? 2 with
        | none => discoverLoop rest ip ptc pfc      -- fields[2] raises, caught
        | some f2 =>
          match fields.get? 3 with
          | none => discoverLoop rest (some (pyStrip f2)) ptc pfc
          | some f3 =>
            match fields.get? 4 with
            | none => discoverLoop rest (some (pyStrip f2)) (some (pyStrip f3)) pfc
            | some f4 =>
              (some (pyStrip f2), some (pyStrip f3), some (pyStrip f4), true)  -- break
      else discoverLoop rest ip ptc pfc

/-- Embedding of `discover_server` from `tic_tac_toe_client_terminal.py`
(lines 9-39): run the receive loop on the datagrams arriving within the
timeout window, then execute
`return server_ip, port_to_clients, port_from_clients` — which raises
`UnboundLocalError` whenever a port variable was never assigned, because
unlike `server_ip` the two port variables have no initialisation before the
loop. -/
def discover_server (datagrams : List (List Char)) :
    Except PyError (Option (List Char) × List Char × List Char) :=
  match discoverLoop datagrams none none none with
  | (ip, some ptc, some pfc, _) => .ok (ip, ptc, pfc)
  | _ => .error .unboundLocalError

/-- The receive loop of `discover_server` in
`tic_tac_toe_client_terminal_autodiscover.py` (lines 86-101): like
`discoverLoop` but the record is only consumed when `len(fields) >= 5`, so
there is no partial assignment. -/
def discoverLoopAuto :
    List (List Char) → Option (List Char) → Option (List Char) → Option (List Char) →
      Option (List Char) × Option (List Char) × Option (List Char)
  | [], ip, ptc, pfc => (ip, ptc, pfc)
  | d :: rest, ip, ptc, pfc =>
    let fields := pySplitSep d
    if 5 ≤ fields.length ∧ pyStrip (fields.getD 1 []) = "server_info".toList then
      (some (pyStrip (fields.getD 2 [])), some (pyStrip (fields.getD 3 [])),
        some (pyStrip (fields.getD 4 [])))
    else discoverLoopAuto rest ip ptc pfc

/-- Embedding of `discover_server` from
`tic_tac_toe_client_terminal_autodiscover.py` (lines 42-104): all three
locals are initialised to `None` before the loop, so on timeout the function
returns normally with `server_ip = None` signalling failure — the caller
(`main`, lines 180-187) then prints "No server found" and returns without
ever reaching the `CONNECT` state. -/
def discover_server_autodiscover (datagrams : List (List Char)) :
    Option (List Char) × Option (List Char) × Option (List Char) :=
  discoverLoopAuto datagrams none none none

/-- States a game can reach from `GameState.initial` through accepted
`make_move` calls (the only mutations the server performs on a game). -/
inductive Reachable : GameState → Prop
  | init : Reachable GameState.initial
  | step (s : GameState) (col row : Int) :
      Reachable s → (s.make_move col row).1 = true → Reachable (s.make_move col row).2

/-- A full board with no three-in-a-row, for exercising the draw check. -/
def fullNoWinBoard : Board :=
  mkBoard 'X' 'O' 'X' 'X' 'O' 'O' 'O' 'X' 'X'

/-- Offsets within a data row of `draw` that hold frame characters (the
padding spaces and the two bar glyphs) rather than cell content:
everything except the cell offsets 1, 5 and 9. -/
def frameOffsets : List Nat := [0, 2, 3, 4, 6, 7, 8, 10]

/-- The separator positions of the 59-character rendering produced by
`draw`: the frame offsets of the three data rows (starting at characters
0, 24 and 48) and every character of the two separator rows (starting at
characters 12 and 36).  The nine cell positions and the four newlines are
excluded. -/
def sepPositions : List Nat :=
  frameOffsets ++ ((List.range 11).map (fun j => 12 + j) ++
    (frameOffsets.map (fun j => 24 + j) ++ ((List.range 11).map (fun j => 36 + j) ++
      frameOffsets.map (fun j => 48 + j))))

example : (GameState.make_move GameState.initial 0 0).1 = true := by decide

example : (GameState.make_move GameState.initial 3 0).1 = false := by decide

example : inspect_win GameState.initial.board = false := by decide

example : draw GameState.initial.board =
    ("   │   │   \n───┼───┼───\n   │   │   \n───┼───┼───\n   │   │   ").toList := by decide

example : splitLines "ab\ncd".toList = ["ab".toList, "cd".toList] := by decide

example : splitLines "ab\n".toList = ["ab".toList] := by decide

example : splitLines "a\r\nb".toList = ["a".toList, "b".toList] := by decide

example : splitLines "a\n\nb".toList = ["a".toList, [], "b".toList] := by decide

example : splitLines [] = [] := by decide

example : (load_game_string (draw GameState.initial.board)).map
    (fun g => (g.current_player, boardFlat g.board)) =
    some ('X', boardFlat GameState.initial.board) := by decide

example :
    load_game_string ("   │   │   \n-----------\n   │   │   \n───┼───┼───\n   │   │   ").toList
      = none := by decide

example :
    load_game_string (" X │ X │ X \n───┼───┼───\n   │   │   \n───┼───┼───\n O │ O │ O ").toList
      = none := by decide

example :
    load_game_string (" O │   │   \n───┼───┼───\n   │   │   \n───┼───┼───\n   │   │   ").toList
      = none := by decide

example :
    (load_game_string ("   │   │   \n───┼───┼───\n   │ X │   \n───┼───┼───\n   │   │   ").toList).map
      (fun g => (g.current_player, boardFlat g.board)) =
    some ('O', [' ', ' ', ' ', ' ', 'X', ' ', ' ', ' ', ' ']) := by decide

example : pySplit "client/ 1 2 bob".toList =
    ["client/".toList, "1".toList, "2".toList, "bob".toList] := by decide

example : pySplit "  a  b ".toList = ["a".toList, "b".toList] := by decide

example : pySplit "".toList = [] := by decide

example : pyInt "12".toList = some 12 := by decide

example : pyInt "-3".toList = some (-3) := by decide

example : pyInt "resign".toList = none := by decide

example : pyInt "".toList = none := by decide

example :
    serverStep false ServerState.initial "client/ request join alice".toList =
      .ok { ServerState.initial with players := ["alice".toList] }
        [.joined "alice".toList] := by decide

example :
    serverStep false ServerState.initial "client/".toList = .fatal [.errorDisconnect] := by
  decide

example :
    serverStep false { ServerState.initial with phase := .waitingForMove } [] =
      .fatal [.errorDisconnect] := by decide

example : pySplitSep "a  b".toList = ["a".toList, [], "b".toList] := by decide

example : pyStrip "  ab ".toList = "ab".toList := by decide

example : discover_server [] = .error .unboundLocalError := rfl

example : discover_server ["broadcast/ server_info 10.0.0.7 41111 41112".toList] =
    .ok (some "10.0.0.7".toList, "41111".toList, "41112".toList) := rfl

theorem splitLinesAux_nil (acc : List Char) (f : Bool) :
    splitLinesAux [] acc f = if acc.isEmpty then [] else [acc.reverse] := rfl

theorem splitLinesAux_cons_nonbreak (c : Char) (rest acc : List Char) (f : Bool)
    (h : isLineBreak c = false) :
    splitLinesAux (c :: rest) acc f = splitLinesAux rest (c :: acc) false := by
  have hn : c ≠ '\n' := by rintro rfl; simp [isLineBreak] at h
  have hr : c ≠ '\r' := by rintro rfl; simp [isLineBreak] at h
  simp [splitLinesAux, hn, hr, h]

theorem splitLinesAux_cons_break (c : Char) (rest acc : List Char)
    (hbr : isLineBreak c = true) (hcr : c ≠ '\r') :
    splitLinesAux (c :: rest) acc false = acc.reverse :: splitLinesAux rest [] false := by
  simp [splitLinesAux, hbr, hcr]

theorem splitLinesAux_cr (rest acc : List Char) :
    splitLinesAux ('\r' :: rest) acc false = acc.reverse :: splitLinesAux rest [] true := by
  simp [splitLinesAux]

theorem splitLinesAux_afterCR_lf (rest acc : List Char) :
    splitLinesAux ('\n' :: rest) acc true = splitLinesAux rest acc false := by
  simp [splitLinesAux]

theorem splitLinesAux_append_nonbreak (l : List Char) (rest acc : List Char)
    (h : ∀ c ∈ l, isLineBreak c = false) :
    splitLinesAux (l ++ rest) acc false = splitLinesAux rest (l.reverse ++ acc) false := by
  induction l generalizing acc with
  | nil => simp
  | cons c l ih =>
    rw [List.cons_append,
      splitLinesAux_cons_nonbreak c (l ++ rest) acc false (h c (List.mem_cons_self c l)),
      ih (c :: acc) (fun d hd => h d (List.mem_cons_of_mem c hd))]
    simp

theorem splitLinesAux_line (l : List Char) (rest acc : List Char)
    (h : ∀ c ∈ l, isLineBreak c = false) :
    splitLinesAux (l ++ '\n' :: rest) acc false =
      (acc.reverse ++ l) :: splitLinesAux rest [] false := by
  rw [splitLinesAux_append_nonbreak l _ acc h,
    splitLinesAux_cons_break '\n' rest _ (by decide) (by decide)]
  simp

theorem splitLinesAux_last (l : List Char) (acc : List Char)
    (h : ∀ c ∈ l, isLineBreak c = false) (hne : l ≠ []) :
    splitLinesAux l acc false = [acc.reverse ++ l] := by
  conv_lhs => rw [show l = l ++ [] from (List.append_nil l).symm]
  rw [splitLinesAux_append_nonbreak l [] acc h, splitLinesAux_nil]
  have : l.reverse ++ acc ≠ [] := by simp [hne]
  simp [List.isEmpty_iff, this]

theorem splitLines_five (l0 l1 l2 l3 l4 : List Char)
    (h0 : ∀ c ∈ l0, isLineBreak c = false) (h1 : ∀ c ∈ l1, isLineBreak c = false)
    (h2 : ∀ c ∈ l2, isLineBreak c = false) (h3 : ∀ c ∈ l3, isLineBreak c = false)
    (h4 : ∀ c ∈ l4, isLineBreak c = false) (hne : l4 ≠ []) :
    splitLines (l0 ++ '\n' :: (l1 ++ '\n' :: (l2 ++ '\n' :: (l3 ++ '\n' :: l4)))) =
      [l0, l1, l2, l3, l4] := by
  unfold splitLines
  rw [splitLinesAux_line l0 _ [] h0, splitLinesAux_line l1 _ [] h1,
    splitLinesAux_line l2 _ [] h2, splitLinesAux_line l3 _ [] h3,
    splitLinesAux_last l4 [] h4 hne]
  simp

theorem allowed_nonbreak (c : Char) (h : c ∈ allowed) : isLineBreak c = false := by
  simp [allowed] at h
  rcases h with rfl | rfl | rfl <;> decide

theorem sepLine_nonbreak : ∀ c ∈ sepLine, isLineBreak c = false := by decide

theorem rowChars_nonbreak (b : Board) (r : Fin 3)
    (hall : ∀ rr cc : Fin 3, b rr cc ∈ allowed) :
    ∀ c ∈ rowChars b r, isLineBreak c = false := by
  intro c hc
  simp [rowChars] at hc
  rcases hc with rfl | rfl | rfl | rfl | rfl | rfl | rfl | rfl | rfl | rfl | rfl <;>
    first
      | decide
      | exact allowed_nonbreak _ (hall r 0)
      | exact allowed_nonbreak _ (hall r 1)
      | exact allowed_nonbreak _ (hall r 2)

theorem rowChars_ne_nil (b : Board) (r : Fin 3) : rowChars b r ≠ [] := by
  simp [rowChars]

theorem parseDataLine_rowChars (b : Board) (r : Fin 3)
    (hall : ∀ rr cc : Fin 3, b rr cc ∈ allowed) :
    parseDataLine (rowChars b r) = some (b r 0, b r 1, b r 2) := by
  simp [parseDataLine, rowChars, hall r 0, hall r 1, hall r 2]

theorem mkBoard_eta (b : Board) :
    mkBoard (b 0 0) (b 0 1) (b 0 2) (b 1 0) (b 1 1) (b 1 2) (b 2 0) (b 2 1) (b 2 2) = b := by
  funext r c
  fin_cases r <;> fin_cases c <;> rfl

theorem load_game_string_draw (b : Board)
    (hall : ∀ r c : Fin 3, b r c ∈ allowed)
    (hcnt : countSym b 'X' = countSym b 'O' ∨ countSym b 'X' = countSym b 'O' + 1)
    (hboth : ¬(is_winner b 'X' = true ∧ is_winner b 'O' = true))
    (hxw : is_winner b 'X' = true → countSym b 'X' = countSym b 'O' + 1)
    (how : is_winner b 'O' = true → countSym b 'X' = countSym b 'O') :
    load_game_string (draw b) =
      some { board := b,
             current_player := if countSym b 'X' = countSym b 'O' then 'X' else 'O' } := by
  have hcnt2 :
      List.count 'X' [b 0 0, b 0 1, b 0 2, b 1 0, b 1 1, b 1 2, b 2 0, b 2 1, b 2 2] =
        List.count 'O' [b 0 0, b 0 1, b 0 2, b 1 0, b 1 1, b 1 2, b 2 0, b 2 1, b 2 2] ∨
      List.count 'X' [b 0 0, b 0 1, b 0 2, b 1 0, b 1 1, b 1 2, b 2 0, b 2 1, b 2 2] =
        List.count 'O' [b 0 0, b 0 1, b 0 2, b 1 0, b 1 1, b 1 2, b 2 0, b 2 1, b 2 2] + 1 := hcnt
  have hxw2 : is_winner b 'X' = true →
      List.count 'X' [b 0 0, b 0 1, b 0 2, b 1 0, b 1 1, b 1 2, b 2 0, b 2 1, b 2 2] =
        List.count 'O' [b 0 0, b 0 1, b 0 2, b 1 0, b 1 1, b 1 2, b 2 0, b 2 1, b 2 2] + 1 := hxw
  have how2 : is_winner b 'O' = true →
      List.count 'X' [b 0 0, b 0 1, b 0 2, b 1 0, b 1 1, b 1 2, b 2 0, b 2 1, b 2 2] =
        List.count 'O' [b 0 0, b 0 1, b 0 2, b 1 0, b 1 1, b 1 2, b 2 0, b 2 1, b 2 2] := how
  unfold load_game_string draw
  rw [splitLines_five (rowChars b 0) sepLine (rowChars b 1) sepLine (rowChars b 2)
    (rowChars_nonbreak b 0 hall) sepLine_nonbreak (rowChars_nonbreak b 1 hall)
    sepLine_nonbreak (rowChars_nonbreak b 2 hall) (rowChars_ne_nil b 2)]
  dsimp only
  rw [parseDataLine_rowChars b 0 hall, parseDataLine_rowChars b 1 hall,
    parseDataLine_rowChars b 2 hall]
  dsimp only
  rw [mkBoard_eta b]
  rw [if_pos (by exact ⟨rfl, rfl⟩)]
  rw [if_pos hcnt2]
  rw [if_neg hboth]
  rw [if_neg (fun hx => hx.2 (hxw2 hx.1))]
  rw [if_neg (fun ho => ho.2 (how2 ho.1))]
  rfl

theorem take_nonbreak (L : List Char) (j : Nat)
    (h : ∀ c ∈ L, isLineBreak c = false) : ∀ c ∈ L.take j, isLineBreak c = false :=
  fun c hc => h c (List.take_subset j L hc)

theorem drop_nonbreak (L : List Char) (j : Nat)
    (h : ∀ c ∈ L, isLineBreak c = false) : ∀ c ∈ L.drop j, isLineBreak c = false :=
  fun c hc => h c (List.drop_subset j L hc)

theorem set_nonbreak (L : List Char) (j : Nat) (x : Char)
    (hL : ∀ c ∈ L, isLineBreak c = false) (hx : isLineBreak x = false) :
    ∀ c ∈ L.set j x, isLineBreak c = false :=
  fun c hc => (List.mem_or_eq_of_mem_set hc).elim (hL c) (fun he => he ▸ hx)

theorem splitLinesAux_last_acc (l acc : List Char)
    (h : ∀ c ∈ l, isLineBreak c = false) (hne : acc ≠ []) :
    splitLinesAux l acc false = [acc.reverse ++ l] := by
  conv_lhs => rw [show l = l ++ [] from (List.append_nil l).symm]
  rw [splitLinesAux_append_nonbreak l [] acc h, splitLinesAux_nil]
  have : l.reverse ++ acc ≠ [] := by simp [hne]
  simp [List.isEmpty_iff, this]

theorem splitLinesAux_line_cons (d : Char) (l rest acc : List Char) (f : Bool)
    (hd : isLineBreak d = false) (hl : ∀ c ∈ l, isLineBreak c = false) :
    splitLinesAux (d :: (l ++ '\n' :: rest)) acc f =
      (acc.reverse ++ d :: l) :: splitLinesAux rest [] false := by
  rw [splitLinesAux_cons_nonbreak d _ acc f hd,
    splitLinesAux_line l rest (d :: acc) hl]
  simp

theorem splitLinesAux_break_mid (L : List Char) (j : Nat) (x : Char) (rest acc : List Char)
    (hL : ∀ c ∈ L, isLineBreak c = false) (hx : isLineBreak x = true)
    (hj : j + 1 < L.length) :
    splitLinesAux ((L.set j x) ++ '\n' :: rest) acc false =
      (acc.reverse ++ L.take j) :: L.drop (j + 1) :: splitLinesAux rest [] false := by
  rw [List.set_eq_take_append_cons_drop, if_pos (by omega : j < L.length)]
  rw [List.append_assoc, List.cons_append]
  rw [splitLinesAux_append_nonbreak (L.take j) _ acc (take_nonbreak L j hL)]
  obtain ⟨d, drop2, hd⟩ : ∃ d drop2, L.drop (j + 1) = d :: drop2 := by
    cases hdrop : L.drop (j + 1) with
    | nil =>
      rw [List.drop_eq_nil_iff] at hdrop
      omega
    | cons d drop2 => exact ⟨d, drop2, rfl⟩
  have hdnb : isLineBreak d = false :=
    hL d (List.drop_subset (j + 1) L (hd ▸ List.mem_cons_self d drop2))
  have hdrnb : ∀ c ∈ drop2, isLineBreak c = false := by
    intro c hc
    exact hL c (List.drop_subset (j + 1) L (hd ▸ List.mem_cons_of_mem d hc))
  by_cases hxr : x = '\r'
  · subst hxr
    rw [hd, List.cons_append, splitLinesAux_cr,
      splitLinesAux_line_cons d drop2 rest [] true hdnb hdrnb]
    simp
  · rw [splitLinesAux_cons_break x _ _ hx hxr, hd, List.cons_append,
      splitLinesAux_line_cons d drop2 rest [] false hdnb hdrnb]
    simp

theorem splitLinesAux_break_last_cr (L : List Char) (j : Nat) (rest acc : List Char)
    (hL : ∀ c ∈ L, isLineBreak c = false) (hj : j + 1 = L.length) :
    splitLinesAux ((L.set j '\r') ++ '\n' :: rest) acc false =
      (acc.reverse ++ L.take j) :: splitLinesAux rest [] false := by
  rw [List.set_eq_take_append_cons_drop, if_pos (by omega : j < L.length)]
  rw [show L.drop (j + 1) = [] from by rw [List.drop_eq_nil_iff]; omega]
  rw [List.append_assoc, List.cons_append, List.nil_append]
  rw [splitLinesAux_append_nonbreak (L.take j) _ acc (take_nonbreak L j hL)]
  rw [splitLinesAux_cr, splitLinesAux_afterCR_lf]
  simp

theorem splitLinesAux_break_last_other (L : List Char) (j : Nat) (x : Char)
    (rest acc : List Char)
    (hL : ∀ c ∈ L, isLineBreak c = false) (hx : isLineBreak x = true) (hxr : x ≠ '\r')
    (hj : j + 1 = L.length) :
    splitLinesAux ((L.set j x) ++ '\n' :: rest) acc false =
      (acc.reverse ++ L.take j) :: [] :: splitLinesAux rest [] false := by
  rw [List.set_eq_take_append_cons_drop, if_pos (by omega : j < L.length)]
  rw [show L.drop (j + 1) = [] from by rw [List.drop_eq_nil_iff]; omega]
  rw [List.append_assoc, List.cons_append, List.nil_append]
  rw [splitLinesAux_append_nonbreak (L.take j) _ acc (take_nonbreak L j hL)]
  rw [splitLinesAux_cons_break x _ _ hx hxr,
    splitLinesAux_cons_break '\n' rest [] (by decide) (by decide)]
  simp

theorem splitLinesAux_break_end (L : List Char) (j : Nat) (x : Char) (acc : List Char)
    (hL : ∀ c ∈ L, isLineBreak c = false) (hx : isLineBreak x = true)
    (hj : j + 1 = L.length) :
    splitLinesAux (L.set j x) acc false = [acc.reverse ++ L.take j] := by
  rw [List.set_eq_take_append_cons_drop, if_pos (by omega : j < L.length)]
  rw [show L.drop (j + 1) = [] from by rw [List.drop_eq_nil_iff]; omega]
  rw [splitLinesAux_append_nonbreak (L.take j) _ acc (take_nonbreak L j hL)]
  by_cases hxr : x = '\r'
  · subst hxr
    rw [splitLinesAux_cr]
    simp [splitLinesAux]
  · rw [splitLinesAux_cons_break x _ _ hx hxr]
    simp [splitLinesAux]

theorem splitLinesAux_break_end_mid (L : List Char) (j : Nat) (x : Char) (acc : List Char)
    (hL : ∀ c ∈ L, isLineBreak c = false) (hx : isLineBreak x = true)
    (hj : j + 1 < L.length) :
    splitLinesAux (L.set j x) acc false =
      (acc.reverse ++ L.take j) :: [L.drop (j + 1)] := by
  rw [List.set_eq_take_append_cons_drop, if_pos (by omega : j < L.length)]
  rw [splitLinesAux_append_nonbreak (L.take j) _ acc (take_nonbreak L j hL)]
  obtain ⟨d, drop2, hd⟩ : ∃ d drop2, L.drop (j + 1) = d :: drop2 := by
    cases hdrop : L.drop (j + 1) with
    | nil =>
      rw [List.drop_eq_nil_iff] at hdrop
      omega
    | cons d drop2 => exact ⟨d, drop2, rfl⟩
  have hdnb : isLineBreak d = false :=
    hL d (List.drop_subset (j + 1) L (hd ▸ List.mem_cons_self d drop2))
  have hdrnb : ∀ c ∈ drop2, isLineBreak c = false := by
    intro c hc
    exact hL c (List.drop_subset (j + 1) L (hd ▸ List.mem_cons_of_mem d hc))
  by_cases hxr : x = '\r'
  · subst hxr
    rw [hd, splitLinesAux_cr, splitLinesAux_cons_nonbreak d drop2 [] true hdnb,
      splitLinesAux_last_acc drop2 [d] hdrnb (by simp)]
    simp
  · rw [splitLinesAux_cons_break x _ _ hx hxr, hd,
      splitLinesAux_cons_nonbreak d drop2 [] false hdnb,
      splitLinesAux_last_acc drop2 [d] hdrnb (by simp)]
    simp

/-- A rejected `make_move` returns `False` and the unchanged state; shared by
several results below. -/
theorem make_move_of_not_legal (s : GameState) (col row : Int)
    (h : ¬(0 ≤ row ∧ row < 3) ∨ ¬(0 ≤ col ∧ col < 3) ∨
      ∀ r c : Fin 3, (r : Nat) = row.toNat → (c : Nat) = col.toNat → s.board r c ≠ ' ') :
    s.make_move col row = (false, s) := by
  unfold GameState.make_move
  by_cases hr : 0 ≤ row ∧ row < 3
  · rw [dif_pos hr]
    by_cases hc : 0 ≤ col ∧ col < 3
    · rw [dif_pos hc]
      have hno : ¬ s.board (toFin3 row hr) (toFin3 col hc) = ' ' := by
        rcases h with h | h | h
        · exact absurd hr h
        · exact absurd hc h
        · exact h (toFin3 row hr) (toFin3 col hc) rfl rfl
      simp [hno]
    · rw [dif_neg hc]
  · rw [dif_neg hr]

/-- An accepted `make_move` happened inside the range check with an empty
target cell, and produced exactly the expected successor state. -/
theorem make_move_of_accepted (s : GameState) (col row : Int)
    (h : (s.make_move col row).1 = true) :
    ∃ (hr : 0 ≤ row ∧ row < 3) (hc : 0 ≤ col ∧ col < 3),
      s.board (toFin3 row hr) (toFin3 col hc) = ' ' ∧
      (s.make_move col row).2 =
        { board := Function.update s.board (toFin3 row hr)
            (Function.update (s.board (toFin3 row hr)) (toFin3 col hc) s.current_player),
          current_player := if s.current_player = 'X' then 'O' else 'X' } := by
  by_cases hr : 0 ≤ row ∧ row < 3
  · by_cases hc : 0 ≤ col ∧ col < 3
    · by_cases hcell : s.board (toFin3 row hr) (toFin3 col hc) = ' '
      · refine ⟨hr, hc, hcell, ?_⟩
        unfold GameState.make_move
        rw [dif_pos hr, dif_pos hc]
        simp [hcell]
      · exfalso
        unfold GameState.make_move at h
        rw [dif_pos hr, dif_pos hc] at h
        simp [hcell] at h
    · exfalso
      unfold GameState.make_move at h
      rw [dif_pos hr, dif_neg hc] at h
      simp at h
  · exfalso
    unfold GameState.make_move at h
    rw [dif_neg hr] at h
    simp at h

/-- C10: if `make_move` is called with an out-of-range coordinate or an
occupied target cell, it returns `False` and leaves the `GameState`
completely unchanged — every board cell and `current_player` keep their
prior values. -/
theorem make_move_reject_atomic (s : GameState) (col row : Int)
    (h : ¬(0 ≤ row ∧ row < 3) ∨ ¬(0 ≤ col ∧ col < 3) ∨
      ∀ r c : Fin 3, (r : Nat) = row.toNat → (c : Nat) = col.toNat → s.board r c ≠ ' ') :
    (s.make_move col row).1 = false ∧
    (∀ r c : Fin 3, (s.make_move col row).2.board r c = s.board r c) ∧
    (s.make_move col row).2.current_player = s.current_player := by
  rw [make_move_of_not_legal s col row h]
  exact ⟨rfl, fun _ _ => rfl, rfl⟩

/-- Witness for C10 at a concrete input: column 3 is out of range on the
fresh board, the call returns `False` and changes nothing. -/
theorem make_move_reject_atomic_witness :
    (¬((0:Int) ≤ (0:Int) ∧ (0:Int) < 3) ∨ ¬((0:Int) ≤ (3:Int) ∧ (3:Int) < 3) ∨
      ∀ r c : Fin 3, (r : Nat) = (0:Int).toNat → (c : Nat) = (3:Int).toNat →
        GameState.initial.board r c ≠ ' ') ∧
    ((GameState.initial.make_move 3 0).1 = false ∧
     (∀ r c : Fin 3, (GameState.initial.make_move 3 0).2.board r c =
        GameState.initial.board r c) ∧
     (GameState.initial.make_move 3 0).2.current_player =
        GameState.initial.current_player) :=
  ⟨Or.inr (Or.inl (by decide)),
   make_move_reject_atomic GameState.initial 3 0 (Or.inr (Or.inl (by decide)))⟩

/-- Counterexample to C5 as stated: the legal move (0,0) on the fresh game is
accepted, yet `make_move` itself flips `_current_player` from X to O, so it
does not leave turn alternation to the caller. -/
theorem make_move_flips_player_counterexample :
    (GameState.initial.make_move 0 0).1 = true ∧
    (GameState.initial.make_move 0 0).2.current_player ≠
      GameState.initial.current_player := by
  constructor
  · rfl
  · decide

/-- C5 as amended: an accepted `make_move` sets exactly the target cell to
the mark of the player who moved, leaves every other cell unchanged, and
itself switches `current_player` to the other symbol (turn alternation is
performed inside `make_move`, not left to the caller). -/
theorem make_move_accept_frame (s : GameState) (col row : Int)
    (h : (s.make_move col row).1 = true) :
    (∀ r c : Fin 3,
      ((r : Nat) = row.toNat ∧ (c : Nat) = col.toNat →
        (s.make_move col row).2.board r c = s.current_player) ∧
      (¬((r : Nat) = row.toNat ∧ (c : Nat) = col.toNat) →
        (s.make_move col row).2.board r c = s.board r c)) ∧
    (s.make_move col row).2.current_player =
      (if s.current_player = 'X' then 'O' else 'X') := by
  obtain ⟨hr, hc, hcell, hst⟩ := make_move_of_accepted s col row h
  rw [hst]
  refine ⟨fun r c => ⟨fun heq => ?_, fun hne => ?_⟩, rfl⟩
  · have hrr : r = toFin3 row hr := Fin.ext heq.1
    have hcc : c = toFin3 col hc := Fin.ext heq.2
    subst hrr; subst hcc
    show Function.update s.board _ _ _ _ = _
    rw [Function.update_same, Function.update_same]
  · by_cases hrr : r = toFin3 row hr
    · subst hrr
      have hcc : c ≠ toFin3 col hc := fun hcc => hne ⟨rfl, by rw [hcc]; rfl⟩
      show Function.update s.board _ _ _ _ = _
      rw [Function.update_same, Function.update_noteq hcc]
    · show Function.update s.board _ _ _ _ = _
      rw [Function.update_noteq hrr]

/-- Witness for C5's amended statement at a concrete input: the accepted
move (1,2) of the fresh game. -/
theorem make_move_accept_frame_witness :
    (GameState.initial.make_move 1 2).1 = true ∧
    ((∀ r c : Fin 3,
      ((r : Nat) = (2:Int).toNat ∧ (c : Nat) = (1:Int).toNat →
        (GameState.initial.make_move 1 2).2.board r c = GameState.initial.current_player) ∧
      (¬((r : Nat) = (2:Int).toNat ∧ (c : Nat) = (1:Int).toNat) →
        (GameState.initial.make_move 1 2).2.board r c = GameState.initial.board r c)) ∧
    (GameState.initial.make_move 1 2).2.current_player =
      (if GameState.initial.current_player = 'X' then 'O' else 'X')) :=
  ⟨rfl, make_move_accept_frame GameState.initial 1 2 rfl⟩

/-- Marking a previously empty cell with `p` adds one to the count of `p`
and leaves the count of any other non-space symbol unchanged. -/
theorem countSym_update (b : Board) (r c : Fin 3) (p q : Char)
    (hb : b r c = ' ') (hq : q ≠ ' ') :
    countSym (Function.update b r (Function.update (b r) c p)) q =
      countSym b q + (if p = q then 1 else 0) := by
  have hmk0 : ∀ h : (0:Nat) < 3, (⟨0, h⟩ : Fin 3) = 0 := fun _ => rfl
  have hmk1 : ∀ h : (1:Nat) < 3, (⟨1, h⟩ : Fin 3) = 1 := fun _ => rfl
  have hmk2 : ∀ h : (2:Nat) < 3, (⟨2, h⟩ : Fin 3) = 2 := fun _ => rfl
  fin_cases r <;> fin_cases c <;>
  · simp only [hmk0, hmk1, hmk2] at hb
    simp +decide [countSym, boardFlat, Function.update_apply, List.count_cons, hb, Ne.symm hq]
    try omega

/-- The alternation invariant: in any reachable game, X is to move with equal
counts, or O is to move with X one ahead. -/
theorem reachable_invariant (s : GameState) (h : Reachable s) :
    (s.current_player = 'X' ∧ countSym s.board 'X' = countSym s.board 'O') ∨
    (s.current_player = 'O' ∧ countSym s.board 'X' = countSym s.board 'O' + 1) := by
  induction h with
  | init => exact Or.inl ⟨rfl, by decide⟩
  | step s col row hreach hacc ih =>
    obtain ⟨hr, hc, hcell, hst⟩ := make_move_of_accepted s col row hacc
    rw [hst]
    dsimp only
    rcases ih with ⟨hp, hcount⟩ | ⟨hp, hcount⟩
    · right
      rw [hp]
      refine ⟨by simp, ?_⟩
      rw [countSym_update s.board (toFin3 row hr) (toFin3 col hc) 'X' 'X' hcell (by decide),
        countSym_update s.board (toFin3 row hr) (toFin3 col hc) 'X' 'O' hcell (by decide)]
      simp
      omega
    · left
      rw [hp]
      refine ⟨by simp, ?_⟩
      rw [countSym_update s.board (toFin3 row hr) (toFin3 col hc) 'O' 'X' hcell (by decide),
        countSym_update s.board (toFin3 row hr) (toFin3 col hc) 'O' 'O' hcell (by decide)]
      simp
      omega

/-- C8: in every game state reachable from the initial state by accepted
`make_move` calls, one symbol's count equals the other's or exceeds it by
exactly one, and the surplus (if any) is held by X, the symbol that moves
first. -/
theorem reachable_count_balance (s : GameState) (h : Reachable s) :
    countSym s.board 'O' ≤ countSym s.board 'X' ∧
    countSym s.board 'X' ≤ countSym s.board 'O' + 1 := by
  rcases reachable_invariant s h with ⟨_, hc⟩ | ⟨_, hc⟩ <;> omega

/-- Witness for C8 at a concrete reachable state: the state after the
accepted opening move (0,0). -/
theorem reachable_count_balance_witness :
    Reachable (GameState.initial.make_move 0 0).2 ∧
    (countSym (GameState.initial.make_move 0 0).2.board 'O' ≤
      countSym (GameState.initial.make_move 0 0).2.board 'X' ∧
     countSym (GameState.initial.make_move 0 0).2.board 'X' ≤
      countSym (GameState.initial.make_move 0 0).2.board 'O' + 1) :=
  ⟨Reachable.step GameState.initial 0 0 Reachable.init rfl,
   reachable_count_balance _ (Reachable.step GameState.initial 0 0 Reachable.init rfl)⟩

/-- C2, evaluated at the failing input: a bare topic prefix (one whitespace
token) is not silently dropped.  In `WAITING_FOR_PLAYERS` and in
`WAITING_FOR_MOVE` alike, `tokens[1]` raises `IndexError`, only the outer
handler catches it, an `error disconnect` response is broadcast and the
session terminates — contradicting the claim that no response is sent and no
exception is raised.  (The `WAITING_FOR_MOVE` receive loop has no
`if not tokens` guard at all, so even the empty message is fatal there.) -/
theorem server_bare_topic_prefix_is_fatal :
    serverStep false ServerState.initial "client/".toList = .fatal [.errorDisconnect] ∧
    serverStep false
      { phase := .waitingForMove, players := ["alice".toList, "bob".toList],
        turn_index := 0, game := some GameState.initial }
      "client/".toList = .fatal [.errorDisconnect] ∧
    serverStep false
      { phase := .waitingForMove, players := ["alice".toList, "bob".toList],
        turn_index := 0, game := some GameState.initial }
      [] = .fatal [.errorDisconnect] :=
  ⟨rfl, rfl, rfl⟩

/-- C3: a move by the player whose turn it is whose coordinates are rejected
by `make_move` (out of range or occupied) makes the server publish
`won <opponent>` and move to `GAME_OVER`; the branch completes normally
(result `.ok`, not `.fatal`). -/
theorem forfeit_on_rejected_move (swap : Bool) (p0 p1 : List Char) (ti : Nat)
    (g : GameState) (msg t0 colTok rowTok u : List Char) (col row : Int)
    (htok : pySplit msg = [t0, colTok, rowTok, u])
    (hcol : pyInt colTok = some col) (hrow : pyInt rowTok = some row)
    (hti : ti = 0 ∨ ti = 1)
    (hne : p0 ≠ p1)
    (hu : u = if ti = 0 then p0 else p1)
    (hrej : (g.make_move col row).1 = false) :
    serverStep swap
      { phase := .waitingForMove, players := [p0, p1], turn_index := ti, game := some g }
      msg =
    .ok { phase := .gameOver, players := [p0, p1], turn_index := ti, game := some g }
      [.won (if ti = 0 then p1 else p0)] := by
  have hres : pyInt ("resign".toList) = none := rfl
  have hcr : colTok ≠ "resign".toList := by
    intro he
    rw [he, hres] at hcol
    exact Option.noConfusion hcol
  rcases hti with rfl | rfl <;>
  · subst hu
    simp only [serverStep, htok, processMove, hcol, hrow, hcr, hrej,
      List.get?, if_false, ite_false, ite_true, reduceIte, Option.some.injEq]
    simp [hne, Ne.symm hne]

/-- Witness for C3 at a concrete input: with players alice (to move) and
bob and a fresh board, the out-of-range move `"client/ 9 9 alice"` makes the
server publish `won bob` and finish. -/
theorem forfeit_on_rejected_move_witness :
    (pySplit "client/ 9 9 alice".toList =
      ["client/".toList, "9".toList, "9".toList, "alice".toList] ∧
     pyInt "9".toList = some 9 ∧
     "alice".toList ≠ "bob".toList ∧
     (GameState.initial.make_move 9 9).1 = false) ∧
    serverStep false
      { phase := .waitingForMove, players := ["alice".toList, "bob".toList],
        turn_index := 0, game := some GameState.initial }
      "client/ 9 9 alice".toList =
    .ok { phase := .gameOver, players := ["alice".toList, "bob".toList],
          turn_index := 0, game := some GameState.initial }
      [.won "bob".toList] :=
  ⟨⟨by decide, by decide, by decide, rfl⟩,
   forfeit_on_rejected_move false "alice".toList "bob".toList 0 GameState.initial
     "client/ 9 9 alice".toList "client/".toList "9".toList "9".toList "alice".toList
     9 9 (by decide) (by decide) (by decide) (Or.inl rfl) (by decide) rfl rfl⟩

/-- C4: a syntactically well-formed move message (four tokens, integer
coordinates) whose username is not `players[turn_index]` changes no session
variable — phase, players, turn index and game are all untouched — and
produces no broadcast; the server is back in `WAITING_FOR_MOVE`. -/
theorem move_by_non_turn_player_ignored (swap : Bool) (p0 p1 : List Char) (ti : Nat)
    (g : GameState) (msg t0 colTok rowTok u : List Char) (col row : Int)
    (htok : pySplit msg = [t0, colTok, rowTok, u])
    (hcol : pyInt colTok = some col) (hrow : pyInt rowTok = some row)
    (hti : ti = 0 ∨ ti = 1)
    (hu : u ≠ (if ti = 0 then p0 else p1)) :
    serverStep swap
      { phase := .waitingForMove, players := [p0, p1], turn_index := ti, game := some g }
      msg =
    .ok { phase := .waitingForMove, players := [p0, p1], turn_index := ti, game := some g }
      [] := by
  have hres : pyInt ("resign".toList) = none := rfl
  have hcr : colTok ≠ "resign".toList := by
    intro he
    rw [he, hres] at hcol
    exact Option.noConfusion hcol
  rcases hti with rfl | rfl
  · have hu2 : u ≠ p0 := by simpa using hu
    simp only [serverStep, htok, processMove, hcol, hrow, hcr, List.get?]
    simp [hu2]
  · have hu2 : u ≠ p1 := by simpa using hu
    simp only [serverStep, htok, processMove, hcol, hrow, hcr, List.get?]
    simp [hu2]

/-- Witness for C4 at a concrete input: bob attempts to move while it is
alice's turn; nothing changes and nothing is broadcast. -/
theorem move_by_non_turn_player_ignored_witness :
    (pySplit "client/ 1 1 bob".toList =
      ["client/".toList, "1".toList, "1".toList, "bob".toList] ∧
     pyInt "1".toList = some 1 ∧
     "bob".toList ≠ "alice".toList) ∧
    serverStep false
      { phase := .waitingForMove, players := ["alice".toList, "bob".toList],
        turn_index := 0, game := some GameState.initial }
      "client/ 1 1 bob".toList =
    .ok { phase := .waitingForMove, players := ["alice".toList, "bob".toList],
          turn_index := 0, game := some GameState.initial }
      [] :=
  ⟨⟨by decide, by decide, by decide⟩,
   move_by_non_turn_player_ignored false "alice".toList "bob".toList 0 GameState.initial
     "client/ 1 1 bob".toList "client/".toList "1".toList "1".toList "bob".toList
     1 1 (by decide) (by decide) (by decide) (Or.inl rfl) (by decide)⟩

/-- C6: whatever the server does with a received message, every `update` it
publishes — at game start and after each accepted move — carries as its
payload exactly the rendering (`draw`) of the board of the game the server
now holds; and the fatal path publishes no `update` at all. -/
theorem update_payload_is_rendering (swap : Bool) (st st2 : ServerState)
    (msg : List Char) (out : List ServerMsg) (s : List Char) :
    (serverStep swap st msg = .ok st2 out →
      ServerMsg.update s ∈ out → ∃ g, st2.game = some g ∧ s = draw g.board) ∧
    (serverStep swap st msg = .fatal out → ServerMsg.update s ∉ out) := by
  refine ⟨?_, ?_⟩ <;>
  · unfold serverStep processMove
    dsimp only
    repeat' split
    all_goals intro h
    all_goals
      first
        | exact StepResult.noConfusion h
        | (cases h; intro hmem; simp_all [gameStr])

/-- Witness for C6 at a concrete step: bob joins alice's lobby, the game
starts, and the published `update` payload is the rendering of the fresh
board. -/
theorem update_payload_is_rendering_witness :
    serverStep false
      { phase := .waitingForPlayers, players := ["alice".toList], turn_index := 0,
        game := none }
      "client/ request join bob".toList =
    .ok { phase := .waitingForMove, players := ["alice".toList, "bob".toList],
          turn_index := 0, game := some GameState.initial }
      [.joined "bob".toList, .update (gameStr GameState.initial), .turn "alice".toList] ∧
    (∃ g, (ServerState.mk .waitingForMove ["alice".toList, "bob".toList] 0
        (some GameState.initial)).game = some g ∧
      gameStr GameState.initial = draw g.board) :=
  ⟨rfl,
   (update_payload_is_rendering false
      { phase := .waitingForPlayers, players := ["alice".toList], turn_index := 0,
        game := none }
      { phase := .waitingForMove, players := ["alice".toList, "bob".toList],
        turn_index := 0, game := some GameState.initial }
      "client/ request join bob".toList
      [.joined "bob".toList, .update (gameStr GameState.initial), .turn "alice".toList]
      (gameStr GameState.initial)).1 rfl (by simp)⟩

/-- C7: the draw check is true exactly when all nine cells are non-empty and
the win check is false; in the server/`main.py` flow, where it only runs
after the win check came back false, it coincides with the bare
all-cells-filled test that `main.py` inlines; and the concrete full board
with no three-in-a-row yields a draw verdict with no winner. -/
theorem inspect_draw_characterisation :
    (∀ b : Board, inspect_draw b = true ↔
      ((∀ x ∈ boardFlat b, x ≠ ' ') ∧ inspect_win b = false)) ∧
    (∀ b : Board, inspect_win b = false →
      ((boardFlat b).all (fun c => c ≠ ' ') = true ↔ inspect_draw b = true)) ∧
    (inspect_draw fullNoWinBoard = true ∧ inspect_win fullNoWinBoard = false) := by
  refine ⟨fun b => ?_, fun b hw => ?_, by decide, by decide⟩
  · simp [inspect_draw, List.all_eq_true]
  · simp [inspect_draw, hw]

/-- C9, evaluated at the failing input: when no datagram containing a
`server_info` record arrives within the timeout window (here: no datagram at
all, or only an unrelated one), `discover_server` of
`tic_tac_toe_client_terminal.py` does not return a failure value — its
`return` statement raises `UnboundLocalError`, because `port_to_clients` and
`port_from_clients` were never assigned.  The sibling
`tic_tac_toe_client_terminal_autodiscover.py` initialises all three locals
and returns the `None`-failure the claim describes, which its caller turns
into "No server found" without entering `CONNECT`. -/
theorem discover_timeout_raises :
    discover_server [] = .error .unboundLocalError ∧
    discover_server ["chat/ hello".toList] = .error .unboundLocalError ∧
    discover_server_autodiscover [] = (none, none, none) ∧
    discover_server_autodiscover ["chat/ hello".toList] = (none, none, none) :=
  ⟨rfl, rfl, rfl, rfl⟩

theorem load_of_splitLines_six (s m0 m1 m2 m3 m4 m5 : List Char)
    (h : splitLines s = [m0, m1, m2, m3, m4, m5]) : load_game_string s = none := by
  unfold load_game_string
  rw [h]

theorem load_of_splitLines_five_bad (s l0 l1 l2 l3 l4 : List Char)
    (h : splitLines s = [l0, l1, l2, l3, l4])
    (hbad : l1 ≠ sepLine ∨ l3 ≠ sepLine ∨ parseDataLine l0 = none ∨
      parseDataLine l2 = none ∨ parseDataLine l4 = none) :
    load_game_string s = none := by
  unfold load_game_string
  rw [h]
  dsimp only
  by_cases hsep : l1 = sepLine ∧ l3 = sepLine
  · rw [if_pos hsep]
    rcases hbad with h1 | h3 | hp | hp | hp
    · exact absurd hsep.1 h1
    · exact absurd hsep.2 h3
    · rw [hp]
    · cases hp0 : parseDataLine l0 with
      | none => rfl
      | some v =>
        obtain ⟨a, b2, c⟩ := v
        rw [hp]
    · cases hp0 : parseDataLine l0 with
      | none => rfl
      | some v =>
        obtain ⟨a, b2, c⟩ := v
        cases hp2 : parseDataLine l2 with
        | none => rfl
        | some w =>
          obtain ⟨d, e, f⟩ := w
          rw [hp]
  · rw [if_neg hsep]

theorem parseDataLine_set_frame (b : Board) (r : Fin 3) (j : Nat) (x : Char)
    (hj : j ∈ frameOffsets) (hx : (rowChars b r).set j x ≠ rowChars b r) :
    parseDataLine ((rowChars b r).set j x) = none := by
  simp only [frameOffsets, List.mem_cons, List.not_mem_nil, or_false] at hj
  rcases hj with rfl | rfl | rfl | rfl | rfl | rfl | rfl | rfl <;>
  · simp only [rowChars, List.set_cons_zero, List.set_cons_succ] at hx ⊢
    simp only [ne_eq, List.cons.injEq, and_true, true_and, not_and] at hx
    simp [parseDataLine, hx]

theorem parseDataLine_take10 (b : Board) (r : Fin 3) :
    parseDataLine ((rowChars b r).take 10) = none := rfl

theorem sepLine_take10_ne : sepLine.take 10 ≠ sepLine := by decide

theorem rowChars_length (b : Board) (r : Fin 3) : (rowChars b r).length = 11 := rfl

theorem sepLine_length : sepLine.length = 11 := rfl

theorem draw_set_line0 (b : Board) (x : Char) (j : Nat) (hj : j < 11) :
    (draw b).set j x =
      (rowChars b 0).set j x ++ '\n' :: (sepLine ++ '\n' ::
        (rowChars b 1 ++ '\n' :: (sepLine ++ '\n' :: rowChars b 2))) := by
  unfold draw
  rw [List.set_append_left _ _ (by rw [rowChars_length]; omega)]

theorem draw_set_sep1 (b : Board) (x : Char) (j : Nat) (hj : j < 11) :
    (draw b).set (12 + j) x =
      rowChars b 0 ++ '\n' :: (sepLine.set j x ++ '\n' ::
        (rowChars b 1 ++ '\n' :: (sepLine ++ '\n' :: rowChars b 2))) := by
  unfold draw
  rw [List.set_append_right _ _ (by rw [rowChars_length]; omega)]
  rw [show 12 + j - (rowChars b 0).length = j + 1 from by rw [rowChars_length]; omega]
  rw [List.set_cons_succ]
  rw [List.set_append_left _ _ (by rw [sepLine_length]; omega)]

theorem draw_set_line1 (b : Board) (x : Char) (j : Nat) (hj : j < 11) :
    (draw b).set (24 + j) x =
      rowChars b 0 ++ '\n' :: (sepLine ++ '\n' ::
        ((rowChars b 1).set j x ++ '\n' :: (sepLine ++ '\n' :: rowChars b 2))) := by
  unfold draw
  rw [List.set_append_right _ _ (by rw [rowChars_length]; omega)]
  rw [show 24 + j - (rowChars b 0).length = (12 + j) + 1 from by rw [rowChars_length]; omega]
  rw [List.set_cons_succ]
  rw [List.set_append_right _ _ (by rw [sepLine_length]; omega)]
  rw [show 12 + j - sepLine.length = j + 1 from by rw [sepLine_length]; omega]
  rw [List.set_cons_succ]
  rw [List.set_append_left _ _ (by rw [rowChars_length]; omega)]

theorem draw_set_sep2 (b : Board) (x : Char) (j : Nat) (hj : j < 11) :
    (draw b).set (36 + j) x =
      rowChars b 0 ++ '\n' :: (sepLine ++ '\n' ::
        (rowChars b 1 ++ '\n' :: (sepLine.set j x ++ '\n' :: rowChars b 2))) := by
  unfold draw
  rw [List.set_append_right _ _ (by rw [rowChars_length]; omega)]
  rw [show 36 + j - (rowChars b 0).length = (24 + j) + 1 from by rw [rowChars_length]; omega]
  rw [List.set_cons_succ]
  rw [List.set_append_right _ _ (by rw [sepLine_length]; omega)]
  rw [show 24 + j - sepLine.length = (12 + j) + 1 from by rw [sepLine_length]; omega]
  rw [List.set_cons_succ]
  rw [List.set_append_right _ _ (by rw [rowChars_length]; omega)]
  rw [show 12 + j - (rowChars b 1).length = j + 1 from by rw [rowChars_length]; omega]
  rw [List.set_cons_succ]
  rw [List.set_append_left _ _ (by rw [sepLine_length]; omega)]

theorem draw_set_line2 (b : Board) (x : Char) (j : Nat) (hj : j < 11) :
    (draw b).set (48 + j) x =
      rowChars b 0 ++ '\n' :: (sepLine ++ '\n' ::
        (rowChars b 1 ++ '\n' :: (sepLine ++ '\n' :: (rowChars b 2).set j x))) := by
  unfold draw
  rw [List.set_append_right _ _ (by rw [rowChars_length]; omega)]
  rw [show 48 + j - (rowChars b 0).length = (36 + j) + 1 from by rw [rowChars_length]; omega]
  rw [List.set_cons_succ]
  rw [List.set_append_right _ _ (by rw [sepLine_length]; omega)]
  rw [show 36 + j - sepLine.length = (24 + j) + 1 from by rw [sepLine_length]; omega]
  rw [List.set_cons_succ]
  rw [List.set_append_right _ _ (by rw [rowChars_length]; omega)]
  rw [show 24 + j - (rowChars b 1).length = (12 + j) + 1 from by rw [rowChars_length]; omega]
  rw [List.set_cons_succ]
  rw [List.set_append_right _ _ (by rw [sepLine_length]; omega)]
  rw [show 12 + j - sepLine.length = j + 1 from by rw [sepLine_length]; omega]
  rw [List.set_cons_succ]

theorem frameOffsets_lt (j : Nat) (hj : j ∈ frameOffsets) : j < 11 := by
  simp only [frameOffsets, List.mem_cons, List.not_mem_nil, or_false] at hj
  rcases hj with rfl | rfl | rfl | rfl | rfl | rfl | rfl | rfl <;> omega

theorem frameOffsets_succ_lt (j : Nat) (hj : j ∈ frameOffsets) (hj10 : j ≠ 10) :
    j + 1 < 11 := by
  simp only [frameOffsets, List.mem_cons, List.not_mem_nil, or_false] at hj
  rcases hj with rfl | rfl | rfl | rfl | rfl | rfl | rfl | rfl <;> omega

theorem load_set_line0_none (b : Board) (x : Char) (j : Nat)
    (hall : ∀ r c : Fin 3, b r c ∈ allowed)
    (hj : j ∈ frameOffsets)
    (hne : (draw b).set j x ≠ draw b) :
    load_game_string ((draw b).set j x) = none := by
  rw [draw_set_line0 b x j (frameOffsets_lt j hj)] at hne ⊢
  have hxline : (rowChars b 0).set j x ≠ rowChars b 0 := by
    intro hEq
    apply hne
    rw [hEq]
    rfl
  by_cases hbr : isLineBreak x = true
  · by_cases hj10 : j = 10
    · subst hj10
      by_cases hxr : x = '\r'
      · subst hxr
        refine load_of_splitLines_five_bad _ ((rowChars b 0).take 10) sepLine
          (rowChars b 1) sepLine (rowChars b 2) ?_
          (Or.inr (Or.inr (Or.inl (parseDataLine_take10 b 0))))
        unfold splitLines
        rw [splitLinesAux_break_last_cr (rowChars b 0) 10 _ []
            (rowChars_nonbreak b 0 hall) (by rw [rowChars_length]),
          splitLinesAux_line sepLine _ [] sepLine_nonbreak,
          splitLinesAux_line (rowChars b 1) _ [] (rowChars_nonbreak b 1 hall),
          splitLinesAux_line sepLine _ [] sepLine_nonbreak,
          splitLinesAux_last (rowChars b 2) [] (rowChars_nonbreak b 2 hall)
            (rowChars_ne_nil b 2)]
        simp
      · refine load_of_splitLines_six _ ((rowChars b 0).take 10) [] sepLine
          (rowChars b 1) sepLine (rowChars b 2) ?_
        unfold splitLines
        rw [splitLinesAux_break_last_other (rowChars b 0) 10 x _ []
            (rowChars_nonbreak b 0 hall) hbr hxr (by rw [rowChars_length]),
          splitLinesAux_line sepLine _ [] sepLine_nonbreak,
          splitLinesAux_line (rowChars b 1) _ [] (rowChars_nonbreak b 1 hall),
          splitLinesAux_line sepLine _ [] sepLine_nonbreak,
          splitLinesAux_last (rowChars b 2) [] (rowChars_nonbreak b 2 hall)
            (rowChars_ne_nil b 2)]
        simp
    · refine load_of_splitLines_six _ ((rowChars b 0).take j)
        ((rowChars b 0).drop (j + 1)) sepLine (rowChars b 1) sepLine (rowChars b 2) ?_
      unfold splitLines
      rw [splitLinesAux_break_mid (rowChars b 0) j x _ [] (rowChars_nonbreak b 0 hall)
          hbr (by rw [rowChars_length]; exact frameOffsets_succ_lt j hj hj10),
        splitLinesAux_line sepLine _ [] sepLine_nonbreak,
        splitLinesAux_line (rowChars b 1) _ [] (rowChars_nonbreak b 1 hall),
        splitLinesAux_line sepLine _ [] sepLine_nonbreak,
        splitLinesAux_last (rowChars b 2) [] (rowChars_nonbreak b 2 hall)
          (rowChars_ne_nil b 2)]
      simp
  · have hbr2 : isLineBreak x = false := by simpa using hbr
    refine load_of_splitLines_five_bad _ ((rowChars b 0).set j x) sepLine
      (rowChars b 1) sepLine (rowChars b 2) ?_
      (Or.inr (Or.inr (Or.inl (parseDataLine_set_frame b 0 j x hj hxline))))
    exact splitLines_five _ _ _ _ _
      (set_nonbreak _ j x (rowChars_nonbreak b 0 hall) hbr2) sepLine_nonbreak
      (rowChars_nonbreak b 1 hall) sepLine_nonbreak (rowChars_nonbreak b 2 hall)
      (rowChars_ne_nil b 2)

theorem load_set_sep1_none (b : Board) (x : Char) (j : Nat)
    (hall : ∀ r c : Fin 3, b r c ∈ allowed)
    (hj : j < 11)
    (hne : (draw b).set (12 + j) x ≠ draw b) :
    load_game_string ((draw b).set (12 + j) x) = none := by
  rw [draw_set_sep1 b x j hj] at hne ⊢
  have hxline : sepLine.set j x ≠ sepLine := by
    intro hEq
    apply hne
    rw [hEq]
    rfl
  by_cases hbr : isLineBreak x = true
  · by_cases hj10 : j = 10
    · subst hj10
      by_cases hxr : x = '\r'
      · subst hxr
        refine load_of_splitLines_five_bad _ (rowChars b 0) (sepLine.take 10)
          (rowChars b 1) sepLine (rowChars b 2) ?_ (Or.inl sepLine_take10_ne)
        unfold splitLines
        rw [splitLinesAux_line (rowChars b 0) _ [] (rowChars_nonbreak b 0 hall),
          splitLinesAux_break_last_cr sepLine 10 _ [] sepLine_nonbreak
            (by rw [sepLine_length]),
          splitLinesAux_line (rowChars b 1) _ [] (rowChars_nonbreak b 1 hall),
          splitLinesAux_line sepLine _ [] sepLine_nonbreak,
          splitLinesAux_last (rowChars b 2) [] (rowChars_nonbreak b 2 hall)
            (rowChars_ne_nil b 2)]
        simp
      · refine load_of_splitLines_six _ (rowChars b 0) (sepLine.take 10) []
          (rowChars b 1) sepLine (rowChars b 2) ?_
        unfold splitLines
        rw [splitLinesAux_line (rowChars b 0) _ [] (rowChars_nonbreak b 0 hall),
          splitLinesAux_break_last_other sepLine 10 x _ [] sepLine_nonbreak hbr hxr
            (by rw [sepLine_length]),
          splitLinesAux_line (rowChars b 1) _ [] (rowChars_nonbreak b 1 hall),
          splitLinesAux_line sepLine _ [] sepLine_nonbreak,
          splitLinesAux_last (rowChars b 2) [] (rowChars_nonbreak b 2 hall)
            (rowChars_ne_nil b 2)]
        simp
    · refine load_of_splitLines_six _ (rowChars b 0) (sepLine.take j)
        (sepLine.drop (j + 1)) (rowChars b 1) sepLine (rowChars b 2) ?_
      unfold splitLines
      rw [splitLinesAux_line (rowChars b 0) _ [] (rowChars_nonbreak b 0 hall),
        splitLinesAux_break_mid sepLine j x _ [] sepLine_nonbreak hbr
          (by rw [sepLine_length]; omega),
        splitLinesAux_line (rowChars b 1) _ [] (rowChars_nonbreak b 1 hall),
        splitLinesAux_line sepLine _ [] sepLine_nonbreak,
        splitLinesAux_last (rowChars b 2) [] (rowChars_nonbreak b 2 hall)
          (rowChars_ne_nil b 2)]
      simp
  · have hbr2 : isLineBreak x = false := by simpa using hbr
    refine load_of_splitLines_five_bad _ (rowChars b 0) (sepLine.set j x)
      (rowChars b 1) sepLine (rowChars b 2) ?_ (Or.inl hxline)
    exact splitLines_five _ _ _ _ _ (rowChars_nonbreak b 0 hall)
      (set_nonbreak _ j x sepLine_nonbreak hbr2) (rowChars_nonbreak b 1 hall)
      sepLine_nonbreak (rowChars_nonbreak b 2 hall) (rowChars_ne_nil b 2)

theorem load_set_line1_none (b : Board) (x : Char) (j : Nat)
    (hall : ∀ r c : Fin 3, b r c ∈ allowed)
    (hj : j ∈ frameOffsets)
    (hne : (draw b).set (24 + j) x ≠ draw b) :
    load_game_string ((draw b).set (24 + j) x) = none := by
  rw [draw_set_line1 b x j (frameOffsets_lt j hj)] at hne ⊢
  have hxline : (rowChars b 1).set j x ≠ rowChars b 1 := by
    intro hEq
    apply hne
    rw [hEq]
    rfl
  by_cases hbr : isLineBreak x = true
  · by_cases hj10 : j = 10
    · subst hj10
      by_cases hxr : x = '\r'
      · subst hxr
        refine load_of_splitLines_five_bad _ (rowChars b 0) sepLine
          ((rowChars b 1).take 10) sepLine (rowChars b 2) ?_
          (Or.inr (Or.inr (Or.inr (Or.inl (parseDataLine_take10 b 1)))))
        unfold splitLines
        rw [splitLinesAux_line (rowChars b 0) _ [] (rowChars_nonbreak b 0 hall),
          splitLinesAux_line sepLine _ [] sepLine_nonbreak,
          splitLinesAux_break_last_cr (rowChars b 1) 10 _ []
            (rowChars_nonbreak b 1 hall) (by rw [rowChars_length]),
          splitLinesAux_line sepLine _ [] sepLine_nonbreak,
          splitLinesAux_last (rowChars b 2) [] (rowChars_nonbreak b 2 hall)
            (rowChars_ne_nil b 2)]
        simp
      · refine load_of_splitLines_six _ (rowChars b 0) sepLine
          ((rowChars b 1).take 10) [] sepLine (rowChars b 2) ?_
        unfold splitLines
        rw [splitLinesAux_line (rowChars b 0) _ [] (rowChars_nonbreak b 0 hall),
          splitLinesAux_line sepLine _ [] sepLine_nonbreak,
          splitLinesAux_break_last_other (rowChars b 1) 10 x _ []
            (rowChars_nonbreak b 1 hall) hbr hxr (by rw [rowChars_length]),
          splitLinesAux_line sepLine _ [] sepLine_nonbreak,
          splitLinesAux_last (rowChars b 2) [] (rowChars_nonbreak b 2 hall)
            (rowChars_ne_nil b 2)]
        simp
    · refine load_of_splitLines_six _ (rowChars b 0) sepLine
        ((rowChars b 1).take j) ((rowChars b 1).drop (j + 1)) sepLine (rowChars b 2) ?_
      unfold splitLines
      rw [splitLinesAux_line (rowChars b 0) _ [] (rowChars_nonbreak b 0 hall),
        splitLinesAux_line sepLine _ [] sepLine_nonbreak,
        splitLinesAux_break_mid (rowChars b 1) j x _ [] (rowChars_nonbreak b 1 hall)
          hbr (by rw [rowChars_length]; exact frameOffsets_succ_lt j hj hj10),
        splitLinesAux_line sepLine _ [] sepLine_nonbreak,
        splitLinesAux_last (rowChars b 2) [] (rowChars_nonbreak b 2 hall)
          (rowChars_ne_nil b 2)]
      simp
  · have hbr2 : isLineBreak x = false := by simpa using hbr
    refine load_of_splitLines_five_bad _ (rowChars b 0) sepLine
      ((rowChars b 1).set j x) sepLine (rowChars b 2) ?_
      (Or.inr (Or.inr (Or.inr (Or.inl (parseDataLine_set_frame b 1 j x hj hxline)))))
    exact splitLines_five _ _ _ _ _ (rowChars_nonbreak b 0 hall) sepLine_nonbreak
      (set_nonbreak _ j x (rowChars_nonbreak b 1 hall) hbr2) sepLine_nonbreak
      (rowChars_nonbreak b 2 hall) (rowChars_ne_nil b 2)

theorem load_set_sep2_none (b : Board) (x : Char) (j : Nat)
    (hall : ∀ r c : Fin 3, b r c ∈ allowed)
    (hj : j < 11)
    (hne : (draw b).set (36 + j) x ≠ draw b) :
    load_game_string ((draw b).set (36 + j) x) = none := by
  rw [draw_set_sep2 b x j hj] at hne ⊢
  have hxline : sepLine.set j x ≠ sepLine := by
    intro hEq
    apply hne
    rw [hEq]
    rfl
  by_cases hbr : isLineBreak x = true
  · by_cases hj10 : j = 10
    · subst hj10
      by_cases hxr : x = '\r'
      · subst hxr
        refine load_of_splitLines_five_bad _ (rowChars b 0) sepLine (rowChars b 1)
          (sepLine.take 10) (rowChars b 2) ?_ (Or.inr (Or.inl sepLine_take10_ne))
        unfold splitLines
        rw [splitLinesAux_line (rowChars b 0) _ [] (rowChars_nonbreak b 0 hall),
          splitLinesAux_line sepLine _ [] sepLine_nonbreak,
          splitLinesAux_line (rowChars b 1) _ [] (rowChars_nonbreak b 1 hall),
          splitLinesAux_break_last_cr sepLine 10 _ [] sepLine_nonbreak
            (by rw [sepLine_length]),
          splitLinesAux_last (rowChars b 2) [] (rowChars_nonbreak b 2 hall)
            (rowChars_ne_nil b 2)]
        simp
      · refine load_of_splitLines_six _ (rowChars b 0) sepLine (rowChars b 1)
          (sepLine.take 10) [] (rowChars b 2) ?_
        unfold splitLines
        rw [splitLinesAux_line (rowChars b 0) _ [] (rowChars_nonbreak b 0 hall),
          splitLinesAux_line sepLine _ [] sepLine_nonbreak,
          splitLinesAux_line (rowChars b 1) _ [] (rowChars_nonbreak b 1 hall),
          splitLinesAux_break_last_other sepLine 10 x _ [] sepLine_nonbreak hbr hxr
            (by rw [sepLine_length]),
          splitLinesAux_last (rowChars b 2) [] (rowChars_nonbreak b 2 hall)
            (rowChars_ne_nil b 2)]
        simp
    · refine load_of_splitLines_six _ (rowChars b 0) sepLine (rowChars b 1)
        (sepLine.take j) (sepLine.drop (j + 1)) (rowChars b 2) ?_
      unfold splitLines
      rw [splitLinesAux_line (rowChars b 0) _ [] (rowChars_nonbreak b 0 hall),
        splitLinesAux_line sepLine _ [] sepLine_nonbreak,
        splitLinesAux_line (rowChars b 1) _ [] (rowChars_nonbreak b 1 hall),
        splitLinesAux_break_mid sepLine j x _ [] sepLine_nonbreak hbr
          (by rw [sepLine_length]; omega),
        splitLinesAux_last (rowChars b 2) [] (rowChars_nonbreak b 2 hall)
          (rowChars_ne_nil b 2)]
      simp
  · have hbr2 : isLineBreak x = false := by simpa using hbr
    refine load_of_splitLines_five_bad _ (rowChars b 0) sepLine (rowChars b 1)
      (sepLine.set j x) (rowChars b 2) ?_ (Or.inr (Or.inl hxline))
    exact splitLines_five _ _ _ _ _ (rowChars_nonbreak b 0 hall) sepLine_nonbreak
      (rowChars_nonbreak b 1 hall) (set_nonbreak _ j x sepLine_nonbreak hbr2)
      (rowChars_nonbreak b 2 hall) (rowChars_ne_nil b 2)

theorem load_set_line2_none (b : Board) (x : Char) (j : Nat)
    (hall : ∀ r c : Fin 3, b r c ∈ allowed)
    (hj : j ∈ frameOffsets)
    (hne : (draw b).set (48 + j) x ≠ draw b) :
    load_game_string ((draw b).set (48 + j) x) = none := by
  rw [draw_set_line2 b x j (frameOffsets_lt j hj)] at hne ⊢
  have hxline : (rowChars b 2).set j x ≠ rowChars b 2 := by
    intro hEq
    apply hne
    rw [hEq]
    rfl
  by_cases hbr : isLineBreak x = true
  · by_cases hj10 : j = 10
    · subst hj10
      refine load_of_splitLines_five_bad _ (rowChars b 0) sepLine (rowChars b 1)
        sepLine ((rowChars b 2).take 10) ?_
        (Or.inr (Or.inr (Or.inr (Or.inr (parseDataLine_take10 b 2)))))
      unfold splitLines
      rw [splitLinesAux_line (rowChars b 0) _ [] (rowChars_nonbreak b 0 hall),
        splitLinesAux_line sepLine _ [] sepLine_nonbreak,
        splitLinesAux_line (rowChars b 1) _ [] (rowChars_nonbreak b 1 hall),
        splitLinesAux_line sepLine _ [] sepLine_nonbreak,
        splitLinesAux_break_end (rowChars b 2) 10 x [] (rowChars_nonbreak b 2 hall)
          hbr (by rw [rowChars_length])]
      simp
    · refine load_of_splitLines_six _ (rowChars b 0) sepLine (rowChars b 1)
        sepLine ((rowChars b 2).take j) ((rowChars b 2).drop (j + 1)) ?_
      unfold splitLines
      rw [splitLinesAux_line (rowChars b 0) _ [] (rowChars_nonbreak b 0 hall),
        splitLinesAux_line sepLine _ [] sepLine_nonbreak,
        splitLinesAux_line (rowChars b 1) _ [] (rowChars_nonbreak b 1 hall),
        splitLinesAux_line sepLine _ [] sepLine_nonbreak,
        splitLinesAux_break_end_mid (rowChars b 2) j x [] (rowChars_nonbreak b 2 hall)
          hbr (by rw [rowChars_length]; exact frameOffsets_succ_lt j hj hj10)]
      simp
  · have hbr2 : isLineBreak x = false := by simpa using hbr
    refine load_of_splitLines_five_bad _ (rowChars b 0) sepLine (rowChars b 1)
      sepLine ((rowChars b 2).set j x) ?_
      (Or.inr (Or.inr (Or.inr (Or.inr (parseDataLine_set_frame b 2 j x hj hxline)))))
    refine splitLines_five _ _ _ _ _ (rowChars_nonbreak b 0 hall) sepLine_nonbreak
      (rowChars_nonbreak b 1 hall) sepLine_nonbreak
      (set_nonbreak _ j x (rowChars_nonbreak b 2 hall) hbr2) ?_
    intro hEq2
    have hlen := congrArg List.length hEq2
    rw [List.length_set, rowChars_length] at hlen
    simp at hlen

/-- Counterexample to C1 as stated: `draw` renders every board, including the
board of nine X marks, but `load_game_string` rejects that rendering (the
count validation fails), so the unrestricted round-trip claim "for every
board B, parse(render(B)) succeeds and returns the same board" is false. -/
theorem load_draw_counterexample :
    load_game_string (draw (mkBoard 'X' 'X' 'X' 'X' 'X' 'X' 'X' 'X' 'X')) = none := by
  decide

/-- C1 as amended: for every board whose cells are all in `{X, O, space}`
and which is game-theoretically possible — the X count equals the O count or
exceeds it by one, X and O do not both hold winning lines, an X win forces
X = O + 1, an O win forces equal counts — `load_game_string` applied to the
rendering of the board succeeds and returns exactly the board together with
`next_player` (X when the counts are equal, otherwise O); and it rejects any
string that differs from the rendering by a single character at a separator
(frame) position. -/
theorem load_draw_round_trip (b : Board)
    (hall : ∀ r c : Fin 3, b r c ∈ allowed)
    (hcnt : countSym b 'X' = countSym b 'O' ∨ countSym b 'X' = countSym b 'O' + 1)
    (hboth : ¬(is_winner b 'X' = true ∧ is_winner b 'O' = true))
    (hxw : is_winner b 'X' = true → countSym b 'X' = countSym b 'O' + 1)
    (how : is_winner b 'O' = true → countSym b 'X' = countSym b 'O') :
    load_game_string (draw b) =
      some { board := b,
             current_player := if countSym b 'X' = countSym b 'O' then 'X' else 'O' } ∧
    ∀ p ∈ sepPositions, ∀ x : Char,
      (draw b).set p x ≠ draw b → load_game_string ((draw b).set p x) = none := by
  refine ⟨load_game_string_draw b hall hcnt hboth hxw how, ?_⟩
  intro p hp x hne
  simp only [sepPositions, List.mem_append, List.mem_map, List.mem_range] at hp
  rcases hp with hp | ⟨j, hjlt, rfl⟩ | ⟨j, hj, rfl⟩ | ⟨j, hjlt, rfl⟩ | ⟨j, hj, rfl⟩
  · exact load_set_line0_none b x p hall hp hne
  · exact load_set_sep1_none b x j hall hjlt hne
  · exact load_set_line1_none b x j hall hj hne
  · exact load_set_sep2_none b x j hall hjlt hne
  · exact load_set_line2_none b x j hall hj hne

/-- Witness for C1 at a concrete board: the empty board round-trips and all
its separator mutations are rejected. -/
theorem load_draw_round_trip_witness :
    ((∀ r c : Fin 3, GameState.initial.board r c ∈ allowed) ∧
     (countSym GameState.initial.board 'X' = countSym GameState.initial.board 'O' ∨
      countSym GameState.initial.board 'X' = countSym GameState.initial.board 'O' + 1)) ∧
    (load_game_string (draw GameState.initial.board) =
      some { board := GameState.initial.board,
             current_player :=
               if countSym GameState.initial.board 'X' = countSym GameState.initial.board 'O'
               then 'X' else 'O' } ∧
     ∀ p ∈ sepPositions, ∀ x : Char,
       (draw GameState.initial.board).set p x ≠ draw GameState.initial.board →
         load_game_string ((draw GameState.initial.board).set p x) = none) :=
  ⟨⟨by decide, Or.inl rfl⟩,
   load_draw_round_trip GameState.initial.board (by decide) (Or.inl rfl) (by decide)
     (by decide) (by decide)⟩
